import Mathlib

/-!
# Verification of the cpspg cross-platform OS-primitive layer

Shallow embedding of the cpspg demonstration library (process spawn/wait/kill,
anonymous pipes, named pipes / UNIX-domain sockets, named semaphores, fault
subscription).  Each wrapper in the C sources is a thin layer over a kernel
object; the embedding models the wrapper exactly as written and the kernel
object by its documented POSIX / Win32 semantics, with every external
outcome (descriptor numbers returned by the kernel, success of each syscall)
passed in explicitly as a parameter.
-/

namespace Cpspg

/-! ## Pipe Channel (src/pipe.c)

The UNIX backing: `pipe_read`/`pipe_write` are identity wrappers over
`read(2)`/`write(2)` on the pipe descriptors, so the model is the kernel FIFO
object itself: a byte queue plus the state of the write end.  The Windows
backing differs only in that `ReadFile` reports the peer-closed condition as
`ERROR_BROKEN_PIPE`, which `pipe_read` translates to the return value `0` —
the modelled behaviour is identical. -/

/-- Kernel state of an anonymous pipe: the bytes currently buffered (oldest
first) and whether the write end has been closed. -/
structure PipeState where
  data : List Nat
  writeClosed : Bool
deriving Repr, DecidableEq

/-- `pipe_create` (src/pipe.c:12,50): a fresh pipe is empty with its write end
open. -/
def pipe_create : PipeState :=
  { data := [], writeClosed := false }

/-- `pipe_write(w, buf, size)` (src/pipe.c:33,77): `write(2)` appends the
written bytes to the pipe's buffer.  A partial write is a call with a shorter
`chunk`; the bytes actually accepted are always appended in order. -/
def pipe_write (st : PipeState) (chunk : List Nat) : PipeState :=
  { st with data := st.data ++ chunk }

/-- `pipe_close(w)` on the write end (src/pipe.c:17,61): marks the channel's
write side closed; buffered bytes remain readable. -/
def pipe_close_write (st : PipeState) : PipeState :=
  { st with writeClosed := true }

/-- Outcome of one returning `pipe_read` call: the `ssize_t` return value, the
bytes placed in the caller's buffer, and the pipe state afterwards. -/
structure ReadResult where
  ret : Int
  bytes : List Nat
  after : PipeState
deriving Repr, DecidableEq

/-- `pipe_read(r, buf, cap)` (src/pipe.c:22,69) = `read(2)` on the read end of
a pipe: with data buffered it returns up to `cap` oldest bytes; on an empty
pipe it returns `0` when the write end is closed (end of stream; on Windows
this is the `ERROR_BROKEN_PIPE → 0` branch) and blocks otherwise (`none`:
the call does not return in that state). -/
def pipe_read (st : PipeState) (cap : Nat) : Option ReadResult :=
  if st.data = [] then
    if st.writeClosed then some { ret := 0, bytes := [], after := st }
    else none
  else
    some { ret := ((min cap st.data.length : Nat) : Int)
         , bytes := st.data.take cap
         , after := { st with data := st.data.drop cap } }

/-- Successive `pipe_read` calls with the given buffer capacities; stops early
if a call blocks (never the case once the write end is closed). -/
def pipe_reads : List Nat → PipeState → List (List Nat) × PipeState
  | [], st => ([], st)
  | cap :: caps, st =>
    match pipe_read st cap with
    | none => ([], st)
    | some r =>
      let rest := pipe_reads caps r.after
      (r.bytes :: rest.1, rest.2)

theorem pipe_write_foldl (ws : List (List Nat)) (st : PipeState) :
    List.foldl pipe_write st ws
      = { data := st.data ++ ws.flatten, writeClosed := st.writeClosed } := by
  induction ws generalizing st with
  | nil => simp
  | cons a t ih => simp [pipe_write, ih]

theorem pipe_reads_closed_spec (caps : List Nat) (d : List Nat) :
    (pipe_reads caps { data := d, writeClosed := true }).1.flatten
        ++ (pipe_reads caps { data := d, writeClosed := true }).2.data = d
    ∧ (pipe_reads caps { data := d, writeClosed := true }).2.writeClosed = true
    ∧ (d.length ≤ caps.sum →
        (pipe_reads caps { data := d, writeClosed := true }).2.data = []) := by
  induction caps generalizing d with
  | nil =>
    refine ⟨by simp [pipe_reads], by simp [pipe_reads], ?_⟩
    intro h
    simpa [pipe_reads] using List.eq_nil_of_length_eq_zero (Nat.le_zero.mp (by simpa using h))
  | cons c caps ih =>
    by_cases hd : d = []
    · subst hd
      have hread : pipe_read { data := ([] : List Nat), writeClosed := true } c
          = some { ret := 0, bytes := [], after := { data := [], writeClosed := true } } := by
        simp [pipe_read]
      refine ⟨?_, ?_, ?_⟩
      · simpa [pipe_reads, hread] using (ih []).1
      · simpa [pipe_reads, hread] using (ih []).2.1
      · intro _
        simpa [pipe_reads, hread] using (ih []).2.2 (by simp)
    · have hread : pipe_read { data := d, writeClosed := true } c
          = some { ret := ((min c d.length : Nat) : Int)
                 , bytes := d.take c
                 , after := { data := d.drop c, writeClosed := true } } := by
        simp [pipe_read, hd]
      refine ⟨?_, ?_, ?_⟩
      · have h1 := (ih (d.drop c)).1
        simp only [pipe_reads, hread]
        simp [List.append_assoc, h1]
      · simpa [pipe_reads, hread] using (ih (d.drop c)).2.1
      · intro hlen
        have hlen' : (d.drop c).length ≤ caps.sum := by
          simp only [List.sum_cons] at hlen
          simp only [List.length_drop]
          omega
        simpa [pipe_reads, hread] using (ih (d.drop c)).2.2 hlen'

/-- **C1.** Byte sequences written into a pipe and followed by closing the
write end are read back exactly and in order under any partitioning into
partial reads; once drained, reads return `0` (exactly at end of stream, and
for ever after, the state no longer changing), and a returning read is never
negative. -/
theorem pipe_stream_exact (ws : List (List Nat)) (caps : List Nat) :
    (pipe_reads caps (pipe_close_write (List.foldl pipe_write pipe_create ws))).1.flatten
        ++ (pipe_reads caps (pipe_close_write (List.foldl pipe_write pipe_create ws))).2.data
      = ws.flatten
    ∧ (ws.flatten.length ≤ caps.sum →
        (pipe_reads caps (pipe_close_write (List.foldl pipe_write pipe_create ws))).1.flatten
          = ws.flatten
        ∧ (pipe_reads caps (pipe_close_write (List.foldl pipe_write pipe_create ws))).2.data
          = [])
    ∧ (∀ st cap r, pipe_read st cap = some r → 0 ≤ r.ret)
    ∧ (∀ st cap r, st.writeClosed = true → 0 < cap → pipe_read st cap = some r →
        (r.ret = 0 ↔ st.data = []))
    ∧ (∀ st cap, st.writeClosed = true → st.data = [] →
        pipe_read st cap = some { ret := 0, bytes := [], after := st }) := by
  have hfold : pipe_close_write (List.foldl pipe_write pipe_create ws)
      = { data := ws.flatten, writeClosed := true } := by
    simp [pipe_write_foldl, pipe_create, pipe_close_write]
  have hspec := pipe_reads_closed_spec caps ws.flatten
  refine ⟨by rw [hfold]; exact hspec.1, ?_, ?_, ?_, ?_⟩
  · intro hlen
    have h2 := hspec.2.2 hlen
    have h1 := hspec.1
    rw [hfold]
    rw [h2] at h1
    exact ⟨by simpa using h1, h2⟩
  · intro st cap r hr
    simp only [pipe_read] at hr
    split_ifs at hr
    all_goals first
      | exact Option.noConfusion hr
      | (cases Option.some.inj hr; exact le_refl 0)
      | (cases Option.some.inj hr; exact Int.natCast_nonneg _)
  · intro st cap r hcl hcap hr
    simp only [pipe_read, hcl, if_true] at hr
    split_ifs at hr with h1
    · cases Option.some.inj hr
      simp [h1]
    · cases Option.some.inj hr
      have hlen : 0 < st.data.length := List.length_pos.mpr h1
      have hmin : 0 < min cap st.data.length := lt_min hcap hlen
      show ((min cap st.data.length : Nat) : Int) = 0 ↔ st.data = []
      constructor
      · intro h0
        exfalso
        have hz : min cap st.data.length = 0 := by exact_mod_cast h0
        omega
      · intro h
        exact absurd h h1
  · intro st cap hcl hd
    simp [pipe_read, hd, hcl]

/-- Witness for the conditional parts of `pipe_stream_exact` at a concrete
write/read schedule. -/
theorem pipe_stream_exact_witness :
    (pipe_reads [2, 5]
        (pipe_close_write (List.foldl pipe_write pipe_create [[1, 2], [3]]))).1.flatten
      = ([[1, 2], [3]] : List (List Nat)).flatten :=
  ((pipe_stream_exact [[1, 2], [3]] [2, 5]).2.1 (by decide)).1

/-! ## Process Handle (src/ps-exec.c, src/samples/ps-exec-wait.c)

UNIX backing: `ps_exec` is `vfork` + `execve`.  The parent returns whatever
`vfork` returned: `-1` (= `_PS_NULL`) when `vfork` fails, the child's pid
otherwise.  `vfork` suspends the parent until the child has either performed
`execve` or `_exit`ed, so when `execve` fails the call still returns the
valid pid of a child that exited with code 255 without ever running the
requested program. -/

/-- What the child created by a successful `vfork` did. -/
inductive ChildRun where
  | ranProgram
  | exited255
deriving Repr, DecidableEq

/-- `ps_exec(filename, argv)` on the UNIX backing (src/ps-exec.c:60,
src/samples/ps-exec-wait.c:97).  `vforkRes` is the kernel's `vfork` result
(`-1` on failure, the new pid otherwise); `execOk` is whether `execve`
succeeded in the child.  Result: the returned handle and the child's fate
(`none` when no child was created). -/
def ps_exec_unix (vforkRes : Int) (execOk : Bool) : Int × Option ChildRun :=
  if vforkRes = -1 then (vforkRes, none)
  else (vforkRes, some (if execOk then ChildRun.ranProgram else ChildRun.exited255))

/-- `ps_exec` on the Windows backing (src/ps-exec.c:12): if a UTF-16
conversion fails or `CreateProcessW` refuses creation (executable not found,
not executable, resource limits), the call returns `_PS_NULL` (`none` here);
otherwise the fresh process handle from `PROCESS_INFORMATION`. -/
def ps_exec_win (convOk : Bool) (createRes : Option Nat) : Option Nat :=
  if convOk then createRes else none

/-- **C2 counterexample.**  On the UNIX backing, a failing `execve` after a
successful `vfork` (pid 7) still returns handle `7 ≠ _PS_NULL`, a handle for
a child that never ran the requested program (it exited with code 255). -/
theorem ps_exec_unix_exec_failure_returns_handle :
    (ps_exec_unix 7 false).1 = 7 ∧ ((7 : Int) ≠ -1)
      ∧ (ps_exec_unix 7 false).2 = some ChildRun.exited255 := by
  decide

/-- **C2 (amended).**  Spawn returns either a handle for a created child or
the explicit failure value `_PS_NULL`.  On the Windows backing a refused
creation — including an executable that cannot be found — yields `_PS_NULL`.
On the UNIX backing the result is `_PS_NULL` exactly when `vfork` fails (no
child exists); when `vfork` succeeds but `execve` fails, the returned handle
is the valid pid of a child that exits with code 255 without running the
program (the exec failure is observable only through that exit code, not as
a spawn failure). -/
theorem ps_exec_valid_or_null (vforkRes : Int) (execOk convOk : Bool)
    (hv : vforkRes = -1 ∨ 0 < vforkRes) :
    ((ps_exec_unix vforkRes execOk).1 = -1 ↔ (ps_exec_unix vforkRes execOk).2 = none)
    ∧ ((ps_exec_unix vforkRes execOk).1 ≠ -1 → 0 < (ps_exec_unix vforkRes execOk).1)
    ∧ (vforkRes ≠ -1 → execOk = false →
        (ps_exec_unix vforkRes execOk).2 = some ChildRun.exited255)
    ∧ ps_exec_win convOk none = none := by
  by_cases h : vforkRes = -1
  · subst h
    refine ⟨by simp [ps_exec_unix], by simp [ps_exec_unix], ?_, ?_⟩
    · intro hne
      exact absurd rfl hne
    · cases convOk <;> simp [ps_exec_win]
  · have hpos : 0 < vforkRes := hv.resolve_left h
    refine ⟨?_, ?_, ?_, ?_⟩
    · simp [ps_exec_unix, h]
    · intro _
      simpa [ps_exec_unix, h] using hpos
    · intro _ hexec
      simp [ps_exec_unix, h, hexec]
    · cases convOk <;> simp [ps_exec_win]

/-- Witness for `ps_exec_valid_or_null` at `vfork` result 7, failed `execve`. -/
theorem ps_exec_valid_or_null_witness :
    ((7 : Int) = -1 ∨ (0 : Int) < 7)
      ∧ (ps_exec_unix 7 false).2 = some ChildRun.exited255 :=
  ⟨Or.inr (by decide),
   (ps_exec_valid_or_null 7 false true (Or.inr (by decide))).2.2.1 (by decide) rfl⟩

/-! ### Waiting and killing (src/samples/ps-exec-wait.c) -/

/-- `errno` value `ETIMEDOUT` (Linux). -/
def ETIMEDOUT : Nat := 110

/-- `errno` value `ECHILD` (Linux). -/
def ECHILD : Nat := 10

/-- Winsock error `WSAETIMEDOUT`. -/
def WSAETIMEDOUT : Nat := 10060

/-- Win32 error `ERROR_INVALID_HANDLE`. -/
def ERROR_INVALID_HANDLE : Nat := 6

/-- Win32 `WaitForSingleObject` result `WAIT_TIMEOUT`. -/
def WAIT_TIMEOUT : Int := 258

/-- Signal number `SIGKILL`. -/
def SIGKILL : Nat := 9

/-- Kernel-side state of a child process relative to one parent handle. -/
inductive UnixChild where
  | running
  | zombieExited (status : Nat)
  | zombieKilled (sig : Nat)
  | reaped
deriving Repr, DecidableEq

/-- Outcome of one returning `ps_wait` call on the UNIX backing: the return
value, the contents of `*exit_code` afterwards (`none` models a NULL
argument), the error code this call set (`none`: untouched), and the handle
state afterwards. -/
structure WaitOutcome where
  ret : Int
  cell : Option Int
  err : Option Nat
  child : UnixChild
deriving Repr, DecidableEq

/-- `ps_wait(p, block, exit_code)` on the UNIX backing
(src/samples/ps-exec-wait.c:120): `waitid(P_PID, p, &s, WEXITED | (block ?
0 : WNOHANG))`.
* pid already reaped: `waitid` fails (`ECHILD`), `ps_wait` returns `-1`;
* child running, non-blocking: `waitid` succeeds with `s.si_pid == 0`, so
  `ps_wait` sets `errno = ETIMEDOUT` and returns `-1`;
* child running, blocking: the call does not return yet (`none`);
* zombie: success `0`; only if `exit_code != NULL` is it written — with
  `si_status` for `CLD_EXITED` (the kernel keeps the low 8 bits of the
  `_exit` argument) and `-si_status` (negated signal number) otherwise; the
  pid is reaped, consuming the handle. -/
def ps_wait_unix (child : UnixChild) (block : Bool) (cell : Option Int) :
    Option WaitOutcome :=
  match child with
  | .reaped => some { ret := -1, cell := cell, err := some ECHILD, child := .reaped }
  | .running =>
    if block then none
    else some { ret := -1, cell := cell, err := some ETIMEDOUT, child := .running }
  | .zombieExited status =>
    some { ret := 0, cell := cell.map fun _ => ((status % 256 : Nat) : Int)
         , err := none, child := .reaped }
  | .zombieKilled sig =>
    some { ret := 0, cell := cell.map fun _ => -(sig : Int)
         , err := none, child := .reaped }

/-- `ps_kill(p)` = `kill(p, SIGKILL)` (src/samples/ps-exec-wait.c:143): a
running child is terminated by signal 9; signalling an existing zombie
succeeds without effect; a reaped pid no longer exists (`ESRCH`). -/
def ps_kill_unix (child : UnixChild) : Int × UnixChild :=
  match child with
  | .running => (0, .zombieKilled SIGKILL)
  | .zombieExited s => (0, .zombieExited s)
  | .zombieKilled s => (0, .zombieKilled s)
  | .reaped => (-1, .reaped)

/-- State of a Windows child process object held through one handle. -/
inductive WinChild where
  | running
  | signaled (code : Nat)
  | handleClosed
deriving Repr, DecidableEq

/-- Outcome of one returning `ps_wait` call on the Windows backing. -/
structure WinWaitOutcome where
  ret : Int
  cell : Option Int
  lastError : Option Nat
  child : WinChild
deriving Repr, DecidableEq

/-- Two's-complement reading of a DWORD as a C `int`. -/
def toInt32 (n : Nat) : Int :=
  if n % 2 ^ 32 < 2 ^ 31 then ((n % 2 ^ 32 : Nat) : Int)
  else ((n % 2 ^ 32 : Nat) : Int) - 2 ^ 32

/-- `ps_wait` on the Windows backing (src/samples/ps-exec-wait.c:50):
`WaitForSingleObject(p, block ? INFINITE : 0)`.
* consumed handle: `WAIT_FAILED` (as `int`: `-1`), last error
  `ERROR_INVALID_HANDLE`;
* running, non-blocking: returns `WAIT_TIMEOUT` (`258`) after
  `SetLastError(WSAETIMEDOUT)`;
* running, blocking: does not return yet (`none`);
* signalled: returns `0`; only if `exit_code != NULL` does
  `GetExitCodeProcess` store the DWORD exit code into the `int` cell; the
  handle is closed (`CloseHandle`), consuming it. -/
def ps_wait_win (child : WinChild) (block : Bool) (cell : Option Int) :
    Option WinWaitOutcome :=
  match child with
  | .handleClosed =>
    some { ret := -1, cell := cell, lastError := some ERROR_INVALID_HANDLE
         , child := .handleClosed }
  | .running =>
    if block then none
    else some { ret := WAIT_TIMEOUT, cell := cell, lastError := some WSAETIMEDOUT
              , child := .running }
  | .signaled code =>
    some { ret := 0, cell := cell.map fun _ => toInt32 code
         , lastError := none, child := .handleClosed }

/-- `ps_kill` on the Windows backing (src/samples/ps-exec-wait.c:66):
`TerminateProcess(p, (DWORD)-9)` sets the exit code to the DWORD value of
`-9`; on a consumed handle it fails. -/
def ps_kill_win (child : WinChild) : Int × WinChild :=
  match child with
  | .running => (0, .signaled (2 ^ 32 - 9))
  | .signaled c => (0, .signaled c)
  | .handleClosed => (1, .handleClosed)

/-- **C3.**  A non-blocking `ps_wait` on a still-running child always fails —
returning nonzero with `TimedOut` retrievable as the last error
(`ETIMEDOUT` / `WSAETIMEDOUT`), never a success with an empty status; on an
exited child the same call succeeds, unless the handle was already consumed
by a prior successful wait, in which case it fails. -/
theorem ps_wait_nonblocking_timedout :
    (∀ cell, ps_wait_unix UnixChild.running false cell
      = some { ret := -1, cell := cell, err := some ETIMEDOUT
             , child := UnixChild.running })
    ∧ (∀ cell, ps_wait_win WinChild.running false cell
      = some { ret := WAIT_TIMEOUT, cell := cell, lastError := some WSAETIMEDOUT
             , child := WinChild.running })
    ∧ WAIT_TIMEOUT ≠ 0
    ∧ (∀ s cell r, ps_wait_unix (UnixChild.zombieExited s) false cell = some r →
        r.ret = 0)
    ∧ (∀ s cell r, ps_wait_unix (UnixChild.zombieKilled s) false cell = some r →
        r.ret = 0)
    ∧ (∀ cell r, ps_wait_unix UnixChild.reaped false cell = some r → r.ret ≠ 0)
    ∧ (∀ c cell r, ps_wait_win (WinChild.signaled c) false cell = some r → r.ret = 0)
    ∧ (∀ cell r, ps_wait_win WinChild.handleClosed false cell = some r →
        r.ret ≠ 0) := by
  refine ⟨fun cell => rfl, fun cell => rfl, by decide, ?_, ?_, ?_, ?_, ?_⟩
  · intro s cell r h
    cases Option.some.inj h
    rfl
  · intro s cell r h
    cases Option.some.inj h
    rfl
  · intro cell r h
    cases Option.some.inj h
    simp
  · intro c cell r h
    cases Option.some.inj h
    rfl
  · intro cell r h
    cases Option.some.inj h
    simp

/-- Witness for `ps_wait_nonblocking_timedout` at a NULL status pointer. -/
theorem ps_wait_nonblocking_timedout_witness :
    ps_wait_unix UnixChild.running false none
      = some { ret := -1, cell := none, err := some ETIMEDOUT
             , child := UnixChild.running } :=
  ps_wait_nonblocking_timedout.1 none

/-- **C4.**  A normal exit is reported by a successful wait as a code in
`[0,255]`; termination by signal is reported as the negated signal number —
negative, hence outside `[0,255]` and never equal to any normal exit code;
in particular `ps_kill` followed by a blocking `ps_wait` reports `-9` on
both backings, and on the Windows backing a normal exit code `≤ 255` is
reported unchanged. -/
theorem exit_status_distinguishable :
    (∀ s old, ps_wait_unix (UnixChild.zombieExited s) true (some old)
      = some { ret := 0, cell := some ((s % 256 : Nat) : Int), err := none
             , child := UnixChild.reaped })
    ∧ (∀ s : Nat, 0 ≤ ((s % 256 : Nat) : Int) ∧ ((s % 256 : Nat) : Int) ≤ 255)
    ∧ (∀ sig old, ps_wait_unix (UnixChild.zombieKilled sig) true (some old)
      = some { ret := 0, cell := some (-(sig : Int)), err := none
             , child := UnixChild.reaped })
    ∧ (∀ sig : Nat, 0 < sig → ∀ c : Int, 0 ≤ c → c ≤ 255 → -(sig : Int) ≠ c)
    ∧ ps_kill_unix UnixChild.running = (0, UnixChild.zombieKilled SIGKILL)
    ∧ (∀ old, ps_wait_unix (ps_kill_unix UnixChild.running).2 true (some old)
      = some { ret := 0, cell := some (-9), err := none
             , child := UnixChild.reaped })
    ∧ ¬((0 : Int) ≤ -9 ∧ (-9 : Int) ≤ 255)
    ∧ (∀ code : Nat, code ≤ 255 → toInt32 code = (code : Int))
    ∧ ps_kill_win WinChild.running = (0, WinChild.signaled (2 ^ 32 - 9))
    ∧ (∀ old, ps_wait_win (ps_kill_win WinChild.running).2 true (some old)
      = some { ret := 0, cell := some (-9), lastError := none
             , child := WinChild.handleClosed }) := by
  refine ⟨fun s old => rfl, ?_, fun sig old => rfl, ?_, rfl, ?_, by decide, ?_, rfl, ?_⟩
  · intro s
    have h : s % 256 < 256 := Nat.mod_lt s (by norm_num)
    constructor
    · exact Int.natCast_nonneg _
    · exact_mod_cast Nat.le_of_lt_succ h
  · intro sig hsig c hc0 hc255
    have h : 0 < (sig : Int) := by exact_mod_cast hsig
    omega
  · intro old
    norm_num [ps_kill_unix, ps_wait_unix, SIGKILL]
  · intro code hcode
    have h : code % 2 ^ 32 = code := Nat.mod_eq_of_lt (by omega)
    have hlt : code % 2 ^ 32 < 2 ^ 31 := by omega
    unfold toInt32
    rw [if_pos hlt, h]
  · intro old
    norm_num [ps_kill_win, ps_wait_win, toInt32]

/-- Witness for `exit_status_distinguishable` at signal 9 against code 9. -/
theorem exit_status_distinguishable_witness :
    (0 : Nat) < 9 ∧ -((9 : Nat) : Int) ≠ (9 : Int) :=
  ⟨by decide, exit_status_distinguishable.2.2.2.1 9 (by decide) 9 (by decide) (by decide)⟩

/-- **C10.**  `ps_wait` writes through `exit_code` only on a successful wait;
on every failing return the cell is left unchanged; and a NULL `exit_code`
is always safe — the status is discarded without any write — on both
backings. -/
theorem ps_wait_exit_code_frame :
    (∀ child block cell r, ps_wait_unix child block cell = some r →
        r.ret ≠ 0 → r.cell = cell)
    ∧ (∀ child block r, ps_wait_unix child block none = some r → r.cell = none)
    ∧ (∀ child block cell r, ps_wait_win child block cell = some r →
        r.ret ≠ 0 → r.cell = cell)
    ∧ (∀ child block r, ps_wait_win child block none = some r → r.cell = none) := by
  refine ⟨?_, ?_, ?_, ?_⟩
  · intro child block cell r h hne
    cases child <;> cases block <;> simp [ps_wait_unix] at h <;>
      first
        | (cases h; rfl)
        | (cases h; exact absurd rfl hne)
  · intro child block r h
    cases child <;> cases block <;> simp [ps_wait_unix] at h <;> (cases h; rfl)
  · intro child block cell r h hne
    cases child <;> cases block <;> simp [ps_wait_win] at h <;>
      first
        | (cases h; rfl)
        | (cases h; exact absurd rfl hne)
  · intro child block r h
    cases child <;> cases block <;> simp [ps_wait_win] at h <;> (cases h; rfl)

/-- Witness for `ps_wait_exit_code_frame`: a timed-out non-blocking wait
leaves the status cell holding `3` untouched. -/
theorem ps_wait_exit_code_frame_witness :
    ({ ret := -1, cell := some 3, err := some ETIMEDOUT
     , child := UnixChild.running } : WaitOutcome).cell = some 3 :=
  ps_wait_exit_code_frame.1 UnixChild.running false (some 3) _ rfl (by decide)

/-! ## Named Channel (src/samples-sys/pipe-named.c) -/

/-- `pipe_accept` on the Windows backing (src/samples-sys/pipe-named.c:36):
`ConnectNamedPipe(listen_pipe)`; on success — or when the client connected
before the call (`ERROR_PIPE_CONNECTED`) — the function returns
`listen_pipe` itself: the accepted connection IS the listener handle (the
source comments "Windows: the same pipe fd is returned").  `connected`
covers both success paths; any other failure yields `INVALID_HANDLE_VALUE`
(`none`). -/
def pipe_accept_win (listen_pipe : Nat) (connected : Bool) : Option Nat :=
  if connected then some listen_pipe else none

/-- `pipe_close` on the Windows backing: `CloseHandle(p)` removes `p` from
the process's open handles. -/
def win_close (h : Nat) (openHandles : List Nat) : List Nat :=
  openHandles.erase h

/-- **C5 counterexample.**  On the Windows backing the connection returned by
`pipe_accept` is the listener handle itself, so closing the listener after
acceptance closes the accepted connection: with listener handle 3 open,
`pipe_accept` yields connection handle 3, which is no longer open after
`pipe_close` on the listener. -/
theorem pipe_accept_win_shares_listener_handle :
    pipe_accept_win 3 true = some 3
    ∧ (3 ∈ ([3] : List Nat))
    ∧ 3 ∉ win_close 3 [3] := by
  decide

/-- Kernel state for the UNIX-domain-socket backing: the next descriptor
number the kernel will hand out, the open descriptors of the process, and
each descriptor's socket receive buffer. -/
structure SockState where
  nextFd : Nat
  openFds : List Nat
  buf : Nat → List Nat

/-- `pipe_accept(listen_pipe)` on the UNIX backing
(src/samples-sys/pipe-named.c:168): `accept(listen_pipe, NULL, NULL)`
returns a fresh descriptor for the peer socket; the listener descriptor
stays open and is untouched. -/
def pipe_accept_unix (_listenFd : Nat) (st : SockState) : Nat × SockState :=
  (st.nextFd,
   { st with nextFd := st.nextFd + 1, openFds := st.openFds ++ [st.nextFd] })

/-- `pipe_close` / `pipe_peer_close` on the UNIX backing
(src/samples-sys/pipe-named.c:124,130): `close(p)` releases one descriptor;
the kernel objects behind other descriptors are untouched. -/
def unix_close (fd : Nat) (st : SockState) : SockState :=
  { st with openFds := st.openFds.erase fd }

/-- `pipe_read` on a connected socket descriptor
(src/samples-sys/pipe-named.c:176): `read(2)` takes up to `cap` bytes from
the descriptor's receive buffer; on a descriptor that is not open the call
fails (`EBADF`, `none`). -/
def sock_read (fd : Nat) (cap : Nat) (st : SockState) :
    Option (List Nat × SockState) :=
  if fd ∈ st.openFds then
    some ((st.buf fd).take cap,
      { st with buf := fun x => if x = fd then (st.buf fd).drop cap else st.buf x })
  else none

/-- `pipe_write` on a connected socket descriptor
(src/samples-sys/pipe-named.c:184): `write(2)` succeeds on an open
descriptor, delivering the bytes into the peer socket (outside this state);
on a closed descriptor it fails. -/
def sock_write (fd : Nat) (data : List Nat) (st : SockState) : Option Nat :=
  if fd ∈ st.openFds then some data.length else none

/-- **C5 (amended).**  On the UNIX-domain-socket backing, an accepted
connection and its listener have independent lifetimes: `pipe_accept`
returns a descriptor distinct from the listener; closing the listener
leaves the connection open with its reads and writes unaffected; closing
the connection leaves the listener open.  On the Windows backing this fails
because `pipe_accept` returns the listener handle itself: the two are one
object. -/
theorem listener_connection_lifetimes (l : Nat) (st : SockState)
    (hl : l ∈ st.openFds) (hwf : ∀ fd ∈ st.openFds, fd < st.nextFd) :
    (pipe_accept_unix l st).1 ≠ l
    ∧ (pipe_accept_unix l st).1 ∈ (pipe_accept_unix l st).2.openFds
    ∧ (pipe_accept_unix l st).1
        ∈ (unix_close l (pipe_accept_unix l st).2).openFds
    ∧ (∀ cap,
        (sock_read (pipe_accept_unix l st).1 cap
            (unix_close l (pipe_accept_unix l st).2)).map Prod.fst
          = (sock_read (pipe_accept_unix l st).1 cap
              (pipe_accept_unix l st).2).map Prod.fst)
    ∧ (∀ data, sock_write (pipe_accept_unix l st).1 data
          (unix_close l (pipe_accept_unix l st).2) = some data.length)
    ∧ l ∈ (unix_close (pipe_accept_unix l st).1 (pipe_accept_unix l st).2).openFds
    ∧ (∀ lp, pipe_accept_win lp true = some lp) := by
  have hlt : l < st.nextFd := hwf l hl
  have hne : st.nextFd ≠ l := fun h => absurd (h ▸ hlt) (lt_irrefl l)
  have hmem : st.nextFd ∈ st.openFds ++ [st.nextFd] := by simp
  have hmem' : st.nextFd ∈ (st.openFds ++ [st.nextFd]).erase l :=
    (List.mem_erase_of_ne hne).mpr hmem
  refine ⟨hne, hmem, hmem', ?_, ?_, ?_, fun lp => rfl⟩
  · intro cap
    simp [sock_read, unix_close, pipe_accept_unix, hmem, hmem']
  · intro data
    simp [sock_write, unix_close, pipe_accept_unix, hmem']
  · have : l ≠ st.nextFd := fun h => hne h.symm
    exact (List.mem_erase_of_ne this).mpr (List.mem_append_left _ hl)

/-- Witness for `listener_connection_lifetimes`: listener descriptor 3 in a
state whose next free descriptor is 4. -/
theorem listener_connection_lifetimes_witness :
    (pipe_accept_unix 3 ⟨4, [3], fun _ => [7, 8]⟩).1 ≠ 3 :=
  (listener_connection_lifetimes 3 ⟨4, [3], fun _ => [7, 8]⟩ (by decide)
    (by decide)).1

/-- `errno` value `EINVAL` (Linux). -/
def EINVAL : Nat := 22

/-- `sizeof(sun_path)` in `struct sockaddr_un` (Linux: 108 bytes). -/
def SUN_PATH_SIZE : Nat := 108

/-- Result of `pipe_create_named` / `pipe_connect` on the UNIX backing: the
returned `pipe_t`, the process's open descriptors after the call, the
`errno` value the wrapper itself assigned (`none`: the wrapper assigned
none; values set inside failing syscalls are abstracted), and whether
`socket(2)` was invoked. -/
structure NamedChanResult where
  ret : Int
  fds : List Nat
  wrapperErrno : Option Nat
  socketCalled : Bool
deriving Repr, DecidableEq

/-- `pipe_create_named(name)` on the UNIX backing
(src/samples-sys/pipe-named.c:92): builds a `sockaddr_un`; when the name
with its NUL terminator does not fit `sun_path`, sets `errno = EINVAL` and
returns `PIPE_NULL` before calling `socket`; otherwise `socket`, `bind`,
`listen`, with `close(p)` on any failure after the descriptor exists.
`socketRes` is the descriptor the kernel hands out (`none`: `socket`
failed); `bindOk`/`listenOk` are the outcomes of `bind`/`listen`. -/
def pipe_create_named_unix (name : List Char) (fds : List Nat)
    (socketRes : Option Nat) (bindOk listenOk : Bool) : NamedChanResult :=
  if SUN_PATH_SIZE < name.length + 1 then
    { ret := -1, fds := fds, wrapperErrno := some EINVAL, socketCalled := false }
  else
    match socketRes with
    | none => { ret := -1, fds := fds, wrapperErrno := none, socketCalled := true }
    | some fd =>
      if bindOk then
        if listenOk then
          { ret := (fd : Int), fds := fds ++ [fd], wrapperErrno := none
          , socketCalled := true }
        else
          { ret := -1, fds := (fds ++ [fd]).erase fd, wrapperErrno := none
          , socketCalled := true }
      else
        { ret := -1, fds := (fds ++ [fd]).erase fd, wrapperErrno := none
        , socketCalled := true }

/-- `pipe_connect(name)` on the UNIX backing
(src/samples-sys/pipe-named.c:137): the same address-size check, then
`socket` and `connect`, with `close(p)` when `connect` fails. -/
def pipe_connect_unix (name : List Char) (fds : List Nat)
    (socketRes : Option Nat) (connectOk : Bool) : NamedChanResult :=
  if SUN_PATH_SIZE < name.length + 1 then
    { ret := -1, fds := fds, wrapperErrno := some EINVAL, socketCalled := false }
  else
    match socketRes with
    | none => { ret := -1, fds := fds, wrapperErrno := none, socketCalled := true }
    | some fd =>
      if connectOk then
        { ret := (fd : Int), fds := fds ++ [fd], wrapperErrno := none
        , socketCalled := true }
      else
        { ret := -1, fds := (fds ++ [fd]).erase fd, wrapperErrno := none
        , socketCalled := true }

theorem erase_appended_fresh (fds : List Nat) (fd : Nat) (h : fd ∉ fds) :
    (fds ++ [fd]).erase fd = fds := by
  induction fds with
  | nil => simp
  | cons a t ih =>
    have hne : fd ≠ a := fun hfa => h (hfa ▸ List.mem_cons_self a t)
    have hna : ¬(a == fd) = true := by
      simp
      exact fun hfa => hne hfa.symm
    simp only [List.cons_append, List.erase_cons, if_neg, hna]
    rw [ih (fun hm => h (List.mem_cons_of_mem a hm))]
    simp [hna]

/-- **C9.**  On the POSIX-domain-socket backing, `pipe_create_named` and
`pipe_connect` never leak a descriptor on failure: an oversized name yields
`PIPE_NULL` with `errno = EINVAL` before any socket is created, and every
other failure path closes the freshly created descriptor, leaving the set
of open descriptors exactly as before the call. -/
theorem named_pipe_no_descriptor_leak (name : List Char) (fds : List Nat)
    (socketRes : Option Nat) (bindOk listenOk connectOk : Bool)
    (hfresh : ∀ fd, socketRes = some fd → fd ∉ fds) :
    (SUN_PATH_SIZE < name.length + 1 →
      pipe_create_named_unix name fds socketRes bindOk listenOk
        = { ret := -1, fds := fds, wrapperErrno := some EINVAL
          , socketCalled := false }
      ∧ pipe_connect_unix name fds socketRes connectOk
        = { ret := -1, fds := fds, wrapperErrno := some EINVAL
          , socketCalled := false })
    ∧ ((pipe_create_named_unix name fds socketRes bindOk listenOk).ret = -1 →
        (pipe_create_named_unix name fds socketRes bindOk listenOk).fds = fds)
    ∧ ((pipe_connect_unix name fds socketRes connectOk).ret = -1 →
        (pipe_connect_unix name fds socketRes connectOk).fds = fds) := by
  refine ⟨?_, ?_, ?_⟩
  · intro hbig
    constructor
    · simp [pipe_create_named_unix, hbig]
    · simp [pipe_connect_unix, hbig]
  · intro hret
    by_cases hbig : SUN_PATH_SIZE < name.length + 1
    · simp [pipe_create_named_unix, hbig]
    · cases socketRes with
      | none => simp [pipe_create_named_unix, hbig]
      | some fd =>
        have hnm : fd ∉ fds := hfresh fd rfl
        cases bindOk with
        | false =>
          simp [pipe_create_named_unix, hbig]
          exact erase_appended_fresh fds fd hnm
        | true =>
          cases listenOk with
          | false =>
            simp [pipe_create_named_unix, hbig]
            exact erase_appended_fresh fds fd hnm
          | true =>
            exfalso
            simp [pipe_create_named_unix, hbig] at hret
  · intro hret
    by_cases hbig : SUN_PATH_SIZE < name.length + 1
    · simp [pipe_connect_unix, hbig]
    · cases socketRes with
      | none => simp [pipe_connect_unix, hbig]
      | some fd =>
        have hnm : fd ∉ fds := hfresh fd rfl
        cases connectOk with
        | false =>
          simp [pipe_connect_unix, hbig]
          exact erase_appended_fresh fds fd hnm
        | true =>
          exfalso
          simp [pipe_connect_unix, hbig] at hret

/-- Witness for `named_pipe_no_descriptor_leak`: a failing `bind` with
descriptor 5 created while descriptor 3 was open leaves exactly descriptor
3 open. -/
theorem named_pipe_no_descriptor_leak_witness :
    (pipe_create_named_unix [Char.ofNat 97] [3] (some 5) false true).fds
      = [3] :=
  (named_pipe_no_descriptor_leak [Char.ofNat 97] [3] (some 5) false true true
    (by intro fd h; cases h; decide)).2.1 rfl

/-! ## Counting Semaphore (src/samples-sys/semaphore.c) -/

/-- `SEM_VALUE_MAX` (Linux: `INT_MAX`): largest initial value `sem_open`
accepts when creating. -/
def SEM_VALUE_MAX : Nat := 2147483647

/-- Longest POSIX semaphore name Linux accepts: `NAME_MAX` (255) minus the
`sem.` prefix glibc prepends in `/dev/shm`; a longer name fails with
`ENAMETOOLONG`. -/
def SEM_NAME_MAX : Nat := 251

/-- Maximum count the Windows wrapper hard-codes into `CreateSemaphoreW`
(src/samples-sys/semaphore.c:22): `0xffff`. -/
def CPSEM_MAX_COUNT : Nat := 65535

/-- Size of the wrapper's UTF-16 name buffer `wname[1000]`
(src/samples-sys/semaphore.c:17). -/
def CPSEM_WNAME_CAP : Nat := 1000

/-- `cpsem_open(name, CPSEM_CREATE, value)` on the UNIX backing
(src/samples-sys/semaphore.c:85): `sem_open(name, O_CREAT, 0666, value)`
over the system-wide registry of named semaphores (name ↦ current counter).
An overlong name fails (`ENAMETOOLONG`, `SEM_FAILED` = `CPSEM_NULL`,
`none`).  Otherwise, when the name exists the existing semaphore is opened
and `value` is never examined; when it is absent, `value > SEM_VALUE_MAX`
fails with `EINVAL`, else a semaphore with counter `value` is created.
(Resource-exhaustion failures are not modelled.) -/
def cpsem_open_create_unix (reg : List (String × Nat)) (name : String)
    (value : Nat) : Option String × List (String × Nat) :=
  if SEM_NAME_MAX < name.length then (none, reg)
  else
    match reg.lookup name with
    | some _ => (some name, reg)
    | none =>
      if SEM_VALUE_MAX < value then (none, reg)
      else (some name, (name, value) :: reg)

/-- `cpsem_open(name, CPSEM_CREATE, value)` on the Windows backing
(src/samples-sys/semaphore.c:15): a name that does not fit the conversion
buffer `wname[1000]` makes `MultiByteToWideChar` fail and the wrapper
returns `NULL` (= `CPSEM_NULL`, `none`).  Then
`CreateSemaphoreW(NULL, value, 0xffff, wname)`: the kernel rejects
`lInitialCount > lMaximumCount` with `ERROR_INVALID_PARAMETER` before any
name resolution, so `value > 0xffff` yields `NULL`; otherwise the existing
semaphore of that name is opened — `value` ignored — or a fresh one with
counter `value` is created. -/
def cpsem_open_create_win (reg : List (String × Nat)) (name : String)
    (value : Nat) : Option String × List (String × Nat) :=
  if CPSEM_WNAME_CAP < name.length + 1 then (none, reg)
  else if CPSEM_MAX_COUNT < value then (none, reg)
  else
    match reg.lookup name with
    | some _ => (some name, reg)
    | none => (some name, (name, value) :: reg)

/-- **C6 counterexample.**  `cpsem_open(n, CPSEM_CREATE, v)` does not return
a valid handle for every name and initial value: on the Windows backing,
with no semaphore named `/cpspg.sem` existing, `v = 0x10000` exceeds the
`0xffff` maximum count the wrapper passes to `CreateSemaphoreW`, and the
call returns `CPSEM_NULL` instead of creating a semaphore with counter
`v`. -/
theorem cpsem_open_large_value_returns_null :
    ([] : List (String × Nat)).lookup "/cpspg.sem" = none
    ∧ (cpsem_open_create_win [] "/cpspg.sem" 65536).1 = none := by
  decide

/-- **C6 (amended).**  `cpsem_open(n, CPSEM_CREATE, v)` is an idempotent
open-or-create within the platform bounds: an existing semaphore named `n`
is opened with `v` ignored and the registry untouched; an absent name with
an in-bounds `v` (`≤ SEM_VALUE_MAX` on the UNIX backing, `≤ 0xffff` on the
Windows backing) and an addressable name yields a valid handle to a fresh
semaphore whose counter starts at `v`; an out-of-bounds `v` on a fresh name
is a creation-time error: `CPSEM_NULL`, with the registry unchanged. -/
theorem cpsem_open_or_create_bounded (reg : List (String × Nat))
    (name : String) (v : Nat) :
    (∀ c, reg.lookup name = some c → name.length ≤ SEM_NAME_MAX →
        cpsem_open_create_unix reg name v = (some name, reg))
    ∧ (∀ c, reg.lookup name = some c → name.length + 1 ≤ CPSEM_WNAME_CAP →
        v ≤ CPSEM_MAX_COUNT →
        cpsem_open_create_win reg name v = (some name, reg))
    ∧ (reg.lookup name = none → name.length ≤ SEM_NAME_MAX →
        v ≤ SEM_VALUE_MAX →
        cpsem_open_create_unix reg name v = (some name, (name, v) :: reg)
        ∧ ((name, v) :: reg).lookup name = some v)
    ∧ (reg.lookup name = none → name.length + 1 ≤ CPSEM_WNAME_CAP →
        v ≤ CPSEM_MAX_COUNT →
        cpsem_open_create_win reg name v = (some name, (name, v) :: reg)
        ∧ ((name, v) :: reg).lookup name = some v)
    ∧ (reg.lookup name = none → SEM_VALUE_MAX < v →
        cpsem_open_create_unix reg name v = (none, reg))
    ∧ (CPSEM_MAX_COUNT < v → name.length + 1 ≤ CPSEM_WNAME_CAP →
        cpsem_open_create_win reg name v = (none, reg)) := by
  refine ⟨?_, ?_, ?_, ?_, ?_, ?_⟩
  · intro c hc hname
    simp [cpsem_open_create_unix, Nat.not_lt.mpr hname, hc]
  · intro c hc hname hv
    simp [cpsem_open_create_win, Nat.not_lt.mpr hname, Nat.not_lt.mpr hv, hc]
  · intro hnone hname hv
    refine ⟨?_, ?_⟩
    · simp [cpsem_open_create_unix, Nat.not_lt.mpr hname, hnone, Nat.not_lt.mpr hv]
    · simp [List.lookup]
  · intro hnone hname hv
    refine ⟨?_, ?_⟩
    · simp [cpsem_open_create_win, Nat.not_lt.mpr hname, hnone, Nat.not_lt.mpr hv]
    · simp [List.lookup]
  · intro hnone hv
    by_cases hname : SEM_NAME_MAX < name.length
    · simp [cpsem_open_create_unix, hname]
    · simp [cpsem_open_create_unix, hname, hnone, hv]
  · intro hv hname
    simp [cpsem_open_create_win, Nat.not_lt.mpr hname, hv]

/-- Witness for `cpsem_open_or_create_bounded`: creating `/cpspg.sem` with
initial value 1 in an empty registry yields a valid handle and a counter of
1, as in the sample's `main`. -/
theorem cpsem_open_or_create_bounded_witness :
    cpsem_open_create_win [] "/cpspg.sem" 1
        = (some "/cpspg.sem", [("/cpspg.sem", 1)])
    ∧ ([("/cpspg.sem", 1)] : List (String × Nat)).lookup "/cpspg.sem"
        = some 1 :=
  (cpsem_open_or_create_bounded [] "/cpspg.sem" 1).2.2.2.1 rfl (by decide)
    (by decide)

/-! ## Signal / Exception Delivery (src/samples/signal-cpu-exception.c) -/

/-- Signal number `SIGSEGV` (Linux). -/
def SIGSEGV : Nat := 11

/-- Signal number `SIGILL` (Linux). -/
def SIGILL : Nat := 4

/-- Signal number `SIGFPE` (Linux). -/
def SIGFPE : Nat := 8

/-- `CPSIG_STACK = 0x40000000 | SIGSEGV`
(src/samples/signal-cpu-exception.c:61). -/
def CPSIG_STACK : Nat := 0x40000000 + SIGSEGV

/-- Subscription state on the UNIX backing: whether `_sig_userhandler` is
set, and per signal number whether the current disposition is the library's
`_sig_exc_handler` (installed with `SA_RESETHAND`). -/
structure SigState where
  userhandler : Bool
  armed : Nat → Bool

/-- `sig_subscribe(handler, sigs, n)` on the UNIX backing
(src/samples/signal-cpu-exception.c:73): stores the user handler, then
installs `_sig_exc_handler` with `SA_RESETHAND` — on `SIGSEGV` (with an
alternate stack) when `CPSIG_STACK` is requested, and on every other
requested signal, skipping `CPSIG_STACK` itself and skipping `SIGSEGV` when
the stack case already covers it. -/
def sig_subscribe_unix (sigs : List Nat) : SigState :=
  let have_stack := sigs.contains CPSIG_STACK
  let fromStack : List Nat := if have_stack then [SIGSEGV] else []
  let rest := sigs.filter fun s =>
    !(s == CPSIG_STACK || (s == SIGSEGV && have_stack))
  { userhandler := true, armed := fun s => (fromStack ++ rest).contains s }

/-- Kernel delivery of signal `s` (the fault occurring on the current
thread): when the library handler is the current disposition,
`SA_RESETHAND` resets the disposition to default before the handler runs,
and `_sig_exc_handler` (src/samples/signal-cpu-exception.c:64) invokes the
stored user callback; otherwise the default action occurs and no callback
runs.  Result: whether the user callback was invoked, and the state
afterwards. -/
def sig_deliver_unix (s : Nat) (st : SigState) : Bool × SigState :=
  if st.armed s then
    (st.userhandler,
     { st with armed := fun x => if x = s then false else st.armed x })
  else
    (false, st)

/-- Subscription state on the Windows backing: whether `_sig_userhandler` is
set and whether `_sig_exc_handler` is the installed unhandled-exception
filter. -/
structure WinSigState where
  userhandler : Bool
  filterInstalled : Bool
deriving Repr, DecidableEq

/-- `sig_subscribe` on the Windows backing
(src/samples/signal-cpu-exception.c:45): stores the handler and installs
`_sig_exc_handler` via `SetUnhandledExceptionFilter`. -/
def sig_subscribe_win : WinSigState :=
  { userhandler := true, filterInstalled := true }

/-- Delivery of a CPU exception on the Windows backing: when the filter is
installed, `_sig_exc_handler` (src/samples/signal-cpu-exception.c:27) first
calls `SetUnhandledExceptionFilter(NULL)` — un-installing itself — and only
then invokes the user callback. -/
def sig_deliver_win (st : WinSigState) : Bool × WinSigState :=
  if st.filterInstalled then
    (st.userhandler, { st with filterInstalled := false })
  else
    (false, st)

/-- **C7.**  One-shot fault delivery on both backings: a first occurrence of
a subscribed (armed) fault kind invokes the user callback and disarms the
delivery for that kind, so a second occurrence of the same kind is not
delivered; re-subscribing re-arms it. -/
theorem fault_delivery_one_shot (sigs : List Nat) (s : Nat)
    (harmed : (sig_subscribe_unix sigs).armed s = true) :
    (sig_deliver_unix s (sig_subscribe_unix sigs)).1 = true
    ∧ ((sig_deliver_unix s (sig_subscribe_unix sigs)).2).armed s = false
    ∧ (sig_deliver_unix s (sig_deliver_unix s (sig_subscribe_unix sigs)).2).1
        = false
    ∧ (sig_subscribe_unix sigs).armed s = true
    ∧ (sig_deliver_win sig_subscribe_win).1 = true
    ∧ (sig_deliver_win sig_subscribe_win).2.filterInstalled = false
    ∧ (sig_deliver_win (sig_deliver_win sig_subscribe_win).2).1 = false := by
  have hu : (sig_subscribe_unix sigs).userhandler = true := rfl
  refine ⟨?_, ?_, ?_, harmed, rfl, rfl, rfl⟩
  · simp [sig_deliver_unix, harmed, hu]
  · simp [sig_deliver_unix, harmed]
  · simp [sig_deliver_unix, harmed]

/-- Witness for `fault_delivery_one_shot` at the sample's subscription
(`{SEGV, STACK, ILL, FPE}`) and a `SIGSEGV` fault. -/
theorem fault_delivery_one_shot_witness :
    (sig_subscribe_unix [SIGSEGV, CPSIG_STACK, SIGILL, SIGFPE]).armed SIGSEGV
        = true
    ∧ (sig_deliver_unix SIGSEGV
        (sig_subscribe_unix [SIGSEGV, CPSIG_STACK, SIGILL, SIGFPE])).1 = true :=
  ⟨by decide,
   (fault_delivery_one_shot [SIGSEGV, CPSIG_STACK, SIGILL, SIGFPE] SIGSEGV
      (by decide)).1⟩

/-! ## Command-line construction (src/ps-exec.c, Windows backing) -/

/-- The argument-joining loop of `ps_exec` on the Windows backing
(src/ps-exec.c:18): before every argument except the first (`i != 0`)
exactly one `' '` is emitted, then the argument's characters are appended
verbatim (the UTF-8→UTF-16 conversion maps characters one-to-one and is
elided); no quoting or escaping is inserted anywhere. -/
def args_join_from (argv : List (List Char)) (first : Bool) : List Char :=
  match argv with
  | [] => []
  | a :: rest => (if first then [] else [' ']) ++ a ++ args_join_from rest false

/-- The command line `wargs` that `ps_exec` builds from `argv`. -/
def ps_exec_cmdline (argv : List (List Char)) : List Char :=
  args_join_from argv true

/-- **C8.**  On the single-command-line backing, spawn joins the argument
vector into one command line with exactly one space between consecutive
arguments and each argument's characters verbatim — the result is precisely
the single-space intercalation of the arguments, with no interior quoting
or escaping. -/
theorem cmdline_join_single_space (argv : List (List Char)) :
    ps_exec_cmdline argv = List.intercalate [' '] argv := by
  unfold ps_exec_cmdline
  induction argv with
  | nil => simp [args_join_from, List.intercalate]
  | cons a rest ih =>
    cases rest with
    | nil => simp [args_join_from, List.intercalate, List.intersperse]
    | cons b t =>
      have hfalse : args_join_from (b :: t) false
          = ' ' :: args_join_from (b :: t) true := by
        simp [args_join_from]
      have hic : List.intercalate [' '] (a :: b :: t)
          = a ++ ' ' :: List.intercalate [' '] (b :: t) := by
        simp [List.intercalate, List.intersperse]
      have hstep : args_join_from (a :: b :: t) true
          = a ++ args_join_from (b :: t) false := by
        simp [args_join_from]
      rw [hstep, hfalse, hic, ih]
end Cpspg
